import Mathlib

/-!
Verification development for the electricitymap web-server delivery layer
(`server.js`) and its numeric display helper. The server code is embedded
shallowly: each JavaScript function becomes a Lean definition operating on
explicit request/environment values; JS `undefined`/thrown errors become
`Option`/dedicated constructors. External collaborators (express routing
glue, the i18n middleware, the basic-auth header parser, sprintf-js) are
modelled minimally, and such models are marked in their doc comments.
-/

set_option autoImplicit false

namespace EMap

/-! ## JavaScript-flavoured string primitives

The server manipulates URLs and credential lists with JS string methods
(`indexOf`, `replace` with a string pattern, `split`). We embed these over
`List Char` with the same semantics: `replace` rewrites only the first
occurrence, `split` on a separator character, `indexOf !== -1` is substring
containment. -/

/-- Substring test on character lists: true iff `pat` occurs (contiguously)
in `text`; the empty pattern always occurs, matching JS `indexOf !== -1`. -/
def containsSubstrL (pat : List Char) : List Char → Bool
  | [] => pat.isEmpty
  | c :: rest => pat.isPrefixOf (c :: rest) || containsSubstrL pat rest

/-- JS `s.indexOf(pat) !== -1`. -/
def containsSubstr (s pat : String) : Bool :=
  containsSubstrL pat.data s.data

/-- Replace the first (leftmost) occurrence of `pat` by `repl`, as JS
`String.prototype.replace` does with a string pattern. An empty pattern
matches at position 0. -/
def replaceFirstL (pat repl : List Char) : List Char → List Char
  | [] => if pat.isEmpty then repl else []
  | c :: rest =>
    if pat.isPrefixOf (c :: rest) then repl ++ List.drop pat.length (c :: rest)
    else c :: replaceFirstL pat repl rest

/-- JS `s.replace(pat, repl)` (string pattern: first occurrence only). -/
def replaceFirst (s pat repl : String) : String :=
  ⟨replaceFirstL pat.data repl.data s.data⟩

/-- JS `s.split(sep)` for a single-character separator: `"" ↦ [""]`,
`"a..b" ↦ ["a", "", "b"]`. -/
def splitChar (sep : Char) : List Char → List (List Char)
  | [] => [[]]
  | c :: rest =>
    let r := splitChar sep rest
    if c == sep then [] :: r
    else
      match r with
      | g :: gs => (c :: g) :: gs
      | [] => [[c]]

/-- JS `s.split(sep)` returning strings. -/
def jsSplit (s : String) (sep : Char) : List String :=
  (splitChar sep s.data).map (fun l => ⟨l⟩)

/-! ## Translation lookup (`translateWithLocale`) -/

/-- A parsed per-locale translation JSON file: nested objects whose leaves
are printf-style template strings. -/
inductive TransTree where
  | leaf (s : String)
  | node (children : List (String × TransTree))

/-- JS property access `result[key]` on a translation-tree value: an object
yields the named child (or `undefined`), a string yields `undefined` for the
word-shaped keys used by the server. -/
def childOf : TransTree → String → Option TransTree
  | TransTree.leaf _, _ => none
  | TransTree.node cs, k => List.lookup k cs

/-- The key-walking loop of `translateWithLocale`: starting from
`localeConfigs[locale]`, index by each key in turn, breaking as soon as the
accumulator is null/undefined. -/
def walk : Option TransTree → List String → Option TransTree
  | r, [] => r
  | none, _ :: _ => none
  | some t, k :: ks => walk (childOf t k) ks

/-- The value reached by `translateWithLocale`'s loop for a dotted key. -/
def lookupResult (cfg : String → Option TransTree) (locale keyStr : String) :
    Option TransTree :=
  walk (cfg locale) (jsSplit keyStr '.')

/-- JS falsiness of the loop result `result`: `undefined` and the empty
string are falsy, objects and non-empty strings are truthy. -/
def isFalsyLookup : Option TransTree → Bool
  | none => true
  | some (TransTree.leaf s) => s == ""
  | some (TransTree.node _) => false

/-- Modelled from the spec: sprintf-js `vsprintf`, restricted to the `%s`
placeholders used by the translation templates ("positional arguments
substituted via printf-style formatting"). Each `%s` consumes the next
argument; a missing argument renders as sprintf-js renders
`String(undefined)`, i.e. the text `undefined`; other characters are
copied. -/
def vsprintfChars : List Char → List String → String
  | [], _ => ""
  | '%' :: 's' :: rest, args => args.headD "undefined" ++ vsprintfChars rest args.tail
  | c :: rest, args => String.singleton c ++ vsprintfChars rest args

/-- Modelled from the spec: sprintf-js `vsprintf` on a string template. -/
def vsprintf (template : String) (args : List String) : String :=
  vsprintfChars template.data args

/-- Outcome of a call to `translateWithLocale`: the JS return value is
either `undefined` (falsy, key missing everywhere), a formatted string, or
the call throws (formatting a non-string object). -/
inductive JSResult where
  | undef
  | str (s : String)
  | thrown
deriving DecidableEq

/-- Final step of `translateWithLocale`: `result && vsprintf(result, args)`.
`undefined` short-circuits to `undefined`; a leaf is formatted; formatting
an intermediate object throws (`vsprintf` calls string methods on it). -/
def finishLookup : Option TransTree → List String → JSResult
  | none, _ => JSResult.undef
  | some (TransTree.leaf s), args => JSResult.str (vsprintf s args)
  | some (TransTree.node _), _ => JSResult.thrown

/-- Embedding of `translateWithLocale(locale, keyStr, ...args)`: walk the
locale's tree by the dotted key; if the result is falsy and the locale is
not `en`, recurse as `translateWithLocale('en', keyStr)` — note the source
passes no format arguments to the fallback call, so the retry formats with
an empty argument list; otherwise return `result && vsprintf(result,
formatArgs)`. -/
def translateWithLocale (cfg : String → Option TransTree)
    (locale keyStr : String) (args : List String) : JSResult :=
  let result := lookupResult cfg locale keyStr
  if locale != "en" && isFalsyLookup result then
    finishLookup (lookupResult cfg "en" keyStr) []
  else
    finishLookup result args

/-- Concrete translation table for exercising the fallback: locale `fr` is
present but lacks the key, locale `en` holds a template with one `%s`. -/
def exCfgC2 : String → Option TransTree := fun l =>
  if l = "en" then some (TransTree.node [("greet", TransTree.leaf "hello %s")])
  else if l = "fr" then some (TransTree.node [])
  else none

/-! ## Long-term caching: `getHash` and the `srcHashes` bootstrap -/

/-- A value of `assetsByChunkName[key]` in a build manifest: a single
filename or a list of filenames. -/
inductive ChunkVal where
  | str (s : String)
  | list (l : List String)
deriving DecidableEq

/-- A parsed per-locale build manifest (`manifest_<locale>.json`). -/
structure Manifest where
  assetsByChunkName : List (String × ChunkVal)
deriving DecidableEq

/-- The filter predicate `d.match(new RegExp('\.' + ext + '$'))` of
`getHash`. In the JS string literal `'\.'` the backslash is dropped, so the
regex is `.<ext>$` with a wildcard dot: it matches iff the filename ends
with `ext` preceded by at least one (arbitrary) character. -/
def extMatches (ext d : String) : Bool :=
  ext.data.isSuffixOf d.data && decide (ext.data.length < d.data.length)

/-- Embedding of `getHash(key, ext, obj)`. A string chunk entry is used
directly; a list entry is filtered by `extMatches` and the first match
taken. The hash is the filename with the first occurrence of `.<ext>` and
then the first occurrence of `<key>.` removed. `none` models the throws:
a missing chunk key (calling `.filter` on `undefined`) or an empty filter
result (calling `.replace` on `undefined`). -/
def getHash (key ext : String) (obj : Manifest) : Option String :=
  match List.lookup key obj.assetsByChunkName with
  | some (ChunkVal.str s) =>
    some (replaceFirst (replaceFirst s ("." ++ ext) "") (key ++ ".") "")
  | some (ChunkVal.list l) =>
    match (l.filter (fun d => extMatches ext d)).head? with
    | some f => some (replaceFirst (replaceFirst f ("." ++ ext) "") (key ++ ".") "")
    | none => none
  | none => none

/-- The four per-locale content hashes stored in `srcHashes`. -/
structure Hashes where
  BUNDLE_HASH : String
  STYLES_HASH : String
  VENDOR_HASH : String
  VENDOR_STYLES_HASH : String
deriving DecidableEq

/-- The body of the `try` block of the `srcHashes` bootstrap for one
locale, after the manifest has been read and parsed: extract the four
hashes; any `getHash` throw aborts the whole entry (caught by the
surrounding `catch`). -/
def loadLocaleHashes (obj : Manifest) : Option Hashes := do
  let b ← getHash "bundle" "js" obj
  let st ← getHash "styles" "css" obj
  let v ← getHash "vendor" "js" obj
  let vs ← getHash "vendor" "css" obj
  pure { BUNDLE_HASH := b, STYLES_HASH := st, VENDOR_HASH := v,
         VENDOR_STYLES_HASH := vs }

/-- Embedding of the `srcHashes` bootstrap:
`Object.fromEntries(locales.map(k => try {...} catch { null }).filter(d => d))`.
`manifests k = none` models a failed read or parse of
`manifest_<k>.json`; any failure yields `null`, which the `.filter`
removes, so the locale is omitted from the table. -/
def buildSrcHashes (manifests : String → Option Manifest)
    (ls : List String) : List (String × Hashes) :=
  ls.filterMap (fun k => ((manifests k).bind loadLocaleHashes).map (fun h => (k, h)))

/-- A well-formed example manifest: `bundle`/`styles` entries are single
filenames, `vendor` is a list holding both the script and the stylesheet. -/
def exManifest : Manifest :=
  ⟨[("bundle", ChunkVal.str "bundle.abc123.js"),
    ("styles", ChunkVal.str "styles.def456.css"),
    ("vendor", ChunkVal.list ["vendor.v789.js", "vendor.v789.css"])]⟩

/-- Example manifest table where only locale `en` has a loadable manifest;
reading the manifest of any other locale fails. -/
def exManifests : String → Option Manifest := fun l =>
  if l = "en" then some exManifest else none

/-! ## Requests, environment and responses -/

/-- Modelled from the spec: the name/password pair extracted from the HTTP
Basic-Auth header by the excluded `basic-auth` parser (`auth(req)`). -/
structure BasicUser where
  name : String
  pass : String
deriving DecidableEq

/-- An incoming HTTP request as the server observes it. `query` is the
parsed query string (express `req.query`); `user` is the parsed Basic-Auth
credential, `none` when the header is absent or unparsable; `initLocale` is
modelled from the spec: the locale the excluded i18n middleware resolves
for the request before any `fb_locale` override. -/
structure Req where
  method : String
  host : String
  path : String
  query : List (String × String)
  userAgent : Option String
  xForwardedFor : Option String
  user : Option BasicUser
  initLocale : String

/-- Render the query string back: empty list gives no query part,
otherwise `?k=v&k=v...`; express `req.originalUrl` is the path plus this. -/
def joinPairs : List String → String
  | [] => ""
  | [x] => x
  | x :: xs => x ++ "&" ++ joinPairs xs

/-- The query-string part of the request URL. -/
def queryString (q : List (String × String)) : String :=
  if q.isEmpty then "" else "?" ++ joinPairs (q.map (fun p => p.1 ++ "=" ++ p.2))

/-- Express `req.originalUrl`: path plus query string. -/
def originalUrl (req : Req) : String :=
  req.path ++ queryString req.query

/-- Server process environment and startup-loaded immutable state:
credential list and token from the environment, the `srcHashes` table and
`locales` list built at startup, the locale-configuration maps, and which
paths the static middleware can serve. -/
structure Env where
  basicAuthCredentials : Option String
  electricitymapToken : String
  srcHashes : List (String × Hashes)
  locales : List String
  localeToFacebookLocale : List (String × String)
  supportedFBLocales : List String
  staticFiles : String → Bool

/-- The view model handed to `res.render('pages/index', {...})`. The `__`
translation closure is a function value and is modelled separately by
`translateWithLocale` bound to `locale`. -/
structure ViewModel where
  alternateUrls : List String
  bundleHash : String
  vendorHash : String
  stylesHash : String
  vendorStylesHash : String
  fullUrl : String
  locale : String
  supportedLocales : List String
  FBLocale : Option String
  supportedFBLocales : List String
deriving DecidableEq

/-- The response the server produces for a request. Routes whose bodies are
delegated to external collaborators keep only a tag; `unauthorized` carries
the status code, the `WWW-Authenticate` value and the body; `render`
carries the cookie set by the auth gate (if any) and the view model;
`error` models a thrown handler error (caught by express, surfaced as a
500). -/
inductive Response where
  | healthOk
  | clientVersion
  | translationStatusBadge
  | translationStatusAll
  | translationStatusOne (language : String)
  | redirect (code : Nat) (url : String)
  | sourceMap401
  | staticFile
  | unauthorized (code : Nat) (wwwAuthenticate : String) (body : String)
  | render (cookie : Option (String × String)) (vm : ViewModel)
  | error
deriving DecidableEq

/-! ## The catch-all page handler -/

/-- JS `'lang=' + req.query.lang`: a missing property stringifies to the
text `undefined`. -/
def jsQueryVal : Option String → String
  | some v => v
  | none => "undefined"

/-- Embedding of the `alternateUrls` callback of the catch-all handler: if
the full URL contains the substring `lang` anywhere, replace the first
occurrence of `lang=<current lang value>`; otherwise append `&lang=<l>`
when the query object is non-empty, else strip the first `?` and append
`?lang=<l>`. -/
def alternateUrl (fullUrl : String) (q : List (String × String)) (l : String) : String :=
  if containsSubstr fullUrl "lang" = true then
    replaceFirst fullUrl ("lang=" ++ jsQueryVal (List.lookup "lang" q)) ("lang=" ++ l)
  else if q.isEmpty = false then
    fullUrl ++ "&lang=" ++ l
  else
    replaceFirst fullUrl "?" "" ++ "?lang=" ++ l

/-- The canonical-host redirect condition of the catch-all handler:
`!isStaging && (isNonWWW || isTmrowCo) && user-agent lacks
facebookexternalhit`. A missing `User-Agent` header is coerced to the empty
string by `(req.headers['user-agent'] || '')`. -/
def canonicalRedirectCond (req : Req) : Bool :=
  !(req.host == "staging.electricitymap.org")
    && ((req.host == "electricitymap.org" || req.host == "live.electricitymap.org")
        || containsSubstr req.host "electricitymap.tmrow")
    && !(containsSubstr (req.userAgent.getD "") "facebookexternalhit")

/-- The locale used for rendering: when `fb_locale` is present the handler
calls `res.setLocale(fb_locale.split('_', 2)[0])` — the segment before the
first underscore; otherwise the locale stays as the i18n middleware set it.
The `setLocale` call itself belongs to the excluded i18n middleware and is
modelled from the spec: the first segment becomes the resolved locale. -/
def resolveLocale (req : Req) : String :=
  match List.lookup "fb_locale" req.query with
  | some v => (jsSplit v '_').headD v
  | none => req.initLocale

/-- The credential check of the basic-auth gate: split the configured list
on commas, each entry on colons into `name:pass`, and accept iff some pair
equals the parsed user's name and password. No parsed user never matches. -/
def credsMatch (credStr : String) (user : Option BasicUser) : Bool :=
  match user with
  | none => false
  | some u =>
    (jsSplit credStr ',').any (fun cred =>
      match jsSplit cred ':' with
      | name :: pass :: _ => name == u.name && pass == u.pass
      | _ => false)

/-- The view model the catch-all handler renders once the hash record for
the resolved locale exists. -/
def mkViewModel (env : Env) (req : Req) (locale fullUrl : String)
    (h : Hashes) : ViewModel :=
  { alternateUrls := env.locales.map (fun l => alternateUrl fullUrl req.query l)
    bundleHash := h.BUNDLE_HASH
    vendorHash := h.VENDOR_HASH
    stylesHash := h.STYLES_HASH
    vendorStylesHash := h.VENDOR_STYLES_HASH
    fullUrl := fullUrl
    locale := locale
    supportedLocales := env.locales
    FBLocale := List.lookup locale env.localeToFacebookLocale
    supportedFBLocales := env.supportedFBLocales }

/-- The render step: `srcHashes[locale].BUNDLE_HASH` (and the three other
hash reads) dereference `srcHashes[locale]` without a guard, so a locale
absent from the table makes the view-model construction throw. -/
def renderPage (env : Env) (req : Req) (locale fullUrl : String)
    (cookie : Option (String × String)) : Response :=
  match List.lookup locale env.srcHashes with
  | none => Response.error
  | some h => Response.render cookie (mkViewModel env req locale fullUrl h)

/-- Embedding of the catch-all `app.use('/')` handler: canonical-host
redirect (the HTTPS-redirect branch is dead code behind a constant `false`
and is omitted), `fb_locale` override, optional basic-auth gate (401 with a
`WWW-Authenticate` challenge and an `Access denied` body on failure, a
session-token cookie on success), then the page render. -/
def catchAll (env : Env) (req : Req) : Response :=
  if canonicalRedirectCond req = true then
    Response.redirect 301 ("https://www.electricitymap.org" ++ originalUrl req)
  else
    let locale := resolveLocale req
    let fullUrl := "https://www.electricitymap.org" ++ originalUrl req
    match env.basicAuthCredentials with
    | none => renderPage env req locale fullUrl none
    | some credStr =>
      if credsMatch credStr req.user = true then
        renderPage env req locale fullUrl
          (some ("electricitymap-token", env.electricitymapToken))
      else
        Response.unauthorized 401
          "Basic realm=\"Premium access to electricitymap.org\"" "Access denied"

/-- Whether the basic-auth gate lets the request through: trivially true
when no credential list is configured. -/
def passesAuthGate (env : Env) (req : Req) : Bool :=
  match env.basicAuthCredentials with
  | none => true
  | some credStr => credsMatch credStr req.user

/-! ## The router -/

/-- The fixed `x-forwarded-for` list of the `/dist/*.map` gate. -/
def sourceMapAllowList : List String :=
  ["35.184.238.160", "104.155.159.182", "104.155.149.19", "130.211.230.102"]

/-- `[...].indexOf(req.headers['x-forwarded-for']) !== -1`: a missing
header never equals a list entry. -/
def inAllowList : Option String → Bool
  | some ip => sourceMapAllowList.contains ip
  | none => false

/-- Whether a path matches the express route `/dist/*.map`. -/
def matchesDistMap (path : String) : Bool :=
  "/dist/".data.isPrefixOf path.data && ".map".data.isSuffixOf path.data

/-- Whether a path matches the express route `/translationstatus/:language`
(one further non-empty segment without a slash). -/
def tsLangMatch (path : String) : Bool :=
  "/translationstatus/".data.isPrefixOf path.data
    && (let rest := path.data.drop "/translationstatus/".data.length
        !rest.isEmpty && !rest.contains '/')

/-- The `:language` route parameter. -/
def langParam (path : String) : String :=
  ⟨path.data.drop "/translationstatus/".data.length⟩

/-- Embedding of the route table in registration order: health, version,
translation-status routes, the `/v1/*`, `/v2/*` API redirects, the
`/dist/*.map` source-map gate (any method; falls through to static when
the condition fails), the static middleware (GET/HEAD, only when it has the
file), and finally the catch-all page handler. -/
def dispatch (env : Env) (req : Req) : Response :=
  if req.method = "GET" ∧ req.path = "/health" then Response.healthOk
  else if req.method = "GET" ∧ req.path = "/clientVersion" then Response.clientVersion
  else if req.method = "GET" ∧ req.path = "/translationstatus/badges.svg" then
    Response.translationStatusBadge
  else if req.method = "GET" ∧ req.path = "/translationstatus" then
    Response.translationStatusAll
  else if req.method = "GET" ∧ tsLangMatch req.path = true then
    Response.translationStatusOne (langParam req.path)
  else if req.method = "GET" ∧ ("/v1/".data.isPrefixOf req.path.data = true
      ∨ "/v2/".data.isPrefixOf req.path.data = true) then
    Response.redirect 301 ("https://api.electricitymap.org" ++ originalUrl req)
  else if matchesDistMap req.path = true ∧ inAllowList req.xForwardedFor = true then
    Response.sourceMap401
  else if (req.method = "GET" ∨ req.method = "HEAD") ∧ env.staticFiles req.path = true then
    Response.staticFile
  else catchAll env req

/-! ## Concrete fixtures used by the witnesses -/

/-- A concrete hash record. -/
def hashesEx : Hashes := ⟨"abc123", "def456", "v789", "v789"⟩

/-- Environment with no configured credential list, empty startup tables
and a static middleware that has every file. -/
def envC1 : Env :=
  { basicAuthCredentials := none, electricitymapToken := "",
    srcHashes := [], locales := [], localeToFacebookLocale := [],
    supportedFBLocales := [], staticFiles := fun _ => true }

/-- A request for a source map, parameterized by the `x-forwarded-for`
header. -/
def reqMapWith (ip : Option String) : Req :=
  { method := "GET", host := "www.electricitymap.org",
    path := "/dist/bundle.js.map", query := [], userAgent := none,
    xForwardedFor := ip, user := none, initLocale := "en" }

/-- A legacy-API request with a query string. -/
def reqW8 : Req :=
  { method := "GET", host := "www.electricitymap.org", path := "/v1/foo",
    query := [("bar", "1")], userAgent := none, xForwardedFor := none,
    user := none, initLocale := "en" }

/-- Environment with no credential list and a hash entry for `en` only. -/
def envW : Env :=
  { basicAuthCredentials := none, electricitymapToken := "tok",
    srcHashes := [("en", hashesEx)], locales := ["en", "fr"],
    localeToFacebookLocale := [("en", "en_US")],
    supportedFBLocales := ["en_US"], staticFiles := fun _ => false }

/-- The same environment gated by `BASIC_AUTH_CREDENTIALS=alice:secret`. -/
def envW4 : Env :=
  { envW with basicAuthCredentials := some "alice:secret" }

/-- A page request to the bare legacy host with an ordinary browser
`User-Agent`. -/
def reqW5 : Req :=
  { method := "GET", host := "electricitymap.org", path := "/map",
    query := [("foo", "1")], userAgent := some "Mozilla/5.0",
    xForwardedFor := none, user := none, initLocale := "en" }

/-- The same request issued by the Facebook link-preview crawler. -/
def reqW5fb : Req :=
  { reqW5 with userAgent := some "facebookexternalhit/1.1" }

/-- A canonical-host page request carrying valid Basic-Auth credentials. -/
def reqW4 : Req :=
  { method := "GET", host := "www.electricitymap.org", path := "/",
    query := [], userAgent := none, xForwardedFor := none,
    user := some ⟨"alice", "secret"⟩, initLocale := "en" }

/-- The same request with a wrong password. -/
def reqW4bad : Req :=
  { reqW4 with user := some ⟨"alice", "wrong"⟩ }

/-- A page request whose `fb_locale` resolves to a locale (`fr`) that has
no entry in the hash table. -/
def reqW10 : Req :=
  { method := "GET", host := "www.electricitymap.org", path := "/",
    query := [("fb_locale", "fr_FR")], userAgent := none,
    xForwardedFor := none, user := none, initLocale := "en" }

/-! ## Helper lemmas -/

/-- Looking a key up in the assoc list built by mapping a partial function
over a key list: present iff the key is listed and the function succeeds
on it. -/
theorem lookup_filterMapEntries (g : String → Option Hashes) (ls : List String)
    (k : String) :
    List.lookup k (ls.filterMap (fun x => (g x).map (fun h => (x, h))))
      = if k ∈ ls ∧ g k ≠ none then g k else none := by
  induction ls with
  | nil => simp
  | cons a rest ih =>
    by_cases hk : k = a
    · subst hk
      cases hg : g k with
      | none => simp [List.filterMap_cons, hg, ih]
      | some h => simp [List.filterMap_cons, hg, List.lookup]
    · have hb : (k == a) = false := beq_eq_false_iff_ne.mpr hk
      cases hg : g a with
      | none => simp [List.filterMap_cons, hg, ih, hk]
      | some h => simp [List.filterMap_cons, hg, List.lookup, hb, hk, ih]

/-! ## Claims -/

/-- C1: what the code actually does at the `/dist/*.map` gate, evaluated at
the claim's failing input. The four Sentry addresses are on the
`sourceMapAllowList`, yet a source-map request from an allow-listed address
receives the 401 JSON error, while a request from any other address falls
through to static serving — the exact opposite of the claim (and of the
code's own `Allow sentry` comment). -/
theorem C1_code_behavior :
    ("35.184.238.160" ∈ sourceMapAllowList ∧ "1.2.3.4" ∉ sourceMapAllowList) ∧
    dispatch envC1 (reqMapWith (some "35.184.238.160")) = Response.sourceMap401 ∧
    dispatch envC1 (reqMapWith (some "1.2.3.4")) = Response.staticFile := by
  decide

/-- C2 counterexample: the key `greet` is absent in locale `fr` and maps to
the template `hello %s` in `en`, but the fallback call passes no format
arguments, so `translateWithLocale('fr', 'greet', 'world')` yields
`hello undefined` rather than the claimed `hello world`. -/
theorem C2_counterexample :
    lookupResult exCfgC2 "fr" "greet" = none ∧
    vsprintf "hello %s" ["world"] = "hello world" ∧
    translateWithLocale exCfgC2 "fr" "greet" ["world"] = JSResult.str "hello undefined" ∧
    JSResult.str "hello undefined" ≠ JSResult.str "hello world" :=
  ⟨rfl, by decide, rfl, by decide⟩

/-- C2 (amended): for a non-default locale whose lookup result is falsy,
`translateWithLocale` retries the same lookup against `en` but with an
empty format-argument list (the source drops the arguments in the fallback
call); if the key is absent in `en` as well it returns the unformatted
falsy `undefined` without throwing. -/
theorem C2_theorem (cfg : String → Option TransTree) (locale keyStr : String)
    (args : List String) (h1 : locale ≠ "en")
    (h2 : isFalsyLookup (lookupResult cfg locale keyStr) = true) :
    translateWithLocale cfg locale keyStr args = translateWithLocale cfg "en" keyStr [] ∧
    (lookupResult cfg "en" keyStr = none →
      translateWithLocale cfg locale keyStr args = JSResult.undef) := by
  have hcond : (locale != "en" && isFalsyLookup (lookupResult cfg locale keyStr)) = true := by
    simp [h1, h2]
  constructor
  · simp only [translateWithLocale]
    rw [if_pos hcond, if_neg (by simp)]
  · intro hen
    simp only [translateWithLocale]
    rw [if_pos hcond, hen]
    rfl

/-- C2 witness: the amended behavior at a concrete table — `fr` misses the
key, so the call is the `en` retry with no arguments. -/
theorem C2_witness :
    translateWithLocale exCfgC2 "fr" "greet" ["world"]
      = translateWithLocale exCfgC2 "en" "greet" [] :=
  (C2_theorem exCfgC2 "fr" "greet" ["world"] (by decide) (by rfl)).1

/-- C3 counterexample: for the current URL `/language` with an empty query,
the claim demands the alternate URL `...language?lang=de`, but the code
matches the substring `lang` inside the path, attempts to replace the
absent text `lang=undefined`, and returns the URL unchanged. -/
theorem C3_counterexample :
    alternateUrl "https://www.electricitymap.org/language" [] "de"
      = "https://www.electricitymap.org/language" ∧
    alternateUrl "https://www.electricitymap.org/language" [] "de"
      ≠ "https://www.electricitymap.org/language?lang=de" := by
  decide

/-- C3 (amended): the alternate URL replaces `lang=<current lang value>`
whenever the full URL contains the substring `lang` anywhere (leaving the
URL unchanged when that text does not occur, e.g. when `lang` appears only
in the path); when the URL does not contain `lang`, the locale is appended
with `&` if the query is non-empty and with `?` (after stripping a first
`?`) otherwise. The spec's three examples hold as stated. -/
theorem C3_theorem (fullUrl : String) (q : List (String × String)) (l : String) :
    (containsSubstr fullUrl "lang" = true →
      alternateUrl fullUrl q l
        = replaceFirst fullUrl ("lang=" ++ jsQueryVal (List.lookup "lang" q))
            ("lang=" ++ l)) ∧
    (containsSubstr fullUrl "lang" = false →
      alternateUrl fullUrl q l
        = if q.isEmpty then replaceFirst fullUrl "?" "" ++ "?lang=" ++ l
          else fullUrl ++ "&lang=" ++ l) ∧
    alternateUrl "https://www.electricitymap.org/?foo=1" [("foo", "1")] "de"
      = "https://www.electricitymap.org/?foo=1&lang=de" ∧
    alternateUrl "https://www.electricitymap.org/?lang=en" [("lang", "en")] "de"
      = "https://www.electricitymap.org/?lang=de" ∧
    alternateUrl "https://www.electricitymap.org/" [] "de"
      = "https://www.electricitymap.org/?lang=de" := by
  refine ⟨?_, ?_, by decide, by decide, by decide⟩
  · intro h
    simp [alternateUrl, h]
  · intro h
    by_cases hq : q.isEmpty <;> simp [alternateUrl, h, hq]

/-- C3 witness: the append branch of the amended claim at a concrete
query-less URL. -/
theorem C3_witness :
    alternateUrl "https://www.electricitymap.org/about" [] "de"
      = "https://www.electricitymap.org/about?lang=de" := by
  have h := C3_theorem "https://www.electricitymap.org/about" [] "de"
  rw [h.2.1 (by decide)]
  decide

/-- C4: with no configured credential list the catch-all handler never
produces the 401 auth response; with a configured list and the canonical
redirect not taken, non-matching (or absent) credentials receive the 401
challenge with the `WWW-Authenticate` header and the `Access denied` body,
while matching credentials proceed to the render with the
`electricitymap-token` session cookie attached. -/
theorem C4_theorem (env : Env) (req : Req) :
    (env.basicAuthCredentials = none →
      ∀ c h b, catchAll env req ≠ Response.unauthorized c h b) ∧
    (∀ credStr, env.basicAuthCredentials = some credStr →
      canonicalRedirectCond req = false →
      ((credsMatch credStr req.user = false →
        catchAll env req = Response.unauthorized 401
          "Basic realm=\"Premium access to electricitymap.org\"" "Access denied") ∧
       (credsMatch credStr req.user = true →
        ∀ hs, List.lookup (resolveLocale req) env.srcHashes = some hs →
          catchAll env req = Response.render
            (some ("electricitymap-token", env.electricitymapToken))
            (mkViewModel env req (resolveLocale req)
              ("https://www.electricitymap.org" ++ originalUrl req) hs)))) := by
  constructor
  · intro hcred c h b
    simp only [catchAll, hcred]
    split
    · simp
    · unfold renderPage
      split <;> simp
  · intro credStr hcred hred
    constructor
    · intro hmatch
      simp only [catchAll, hcred, hred]
      simp [hmatch]
    · intro hmatch hs hlook
      simp only [catchAll, hcred, hred]
      simp only [hmatch, renderPage, hlook]
      simp

/-- C4 witness: under `alice:secret`, the matching request renders with the
session cookie and the wrong-password request receives the challenge. -/
theorem C4_witness :
    catchAll envW4 reqW4 = Response.render (some ("electricitymap-token", "tok"))
      (mkViewModel envW4 reqW4 (resolveLocale reqW4)
        ("https://www.electricitymap.org" ++ originalUrl reqW4) hashesEx) ∧
    catchAll envW4 reqW4bad = Response.unauthorized 401
      "Basic realm=\"Premium access to electricitymap.org\"" "Access denied" :=
  ⟨((C4_theorem envW4 reqW4).2 "alice:secret" rfl (by decide)).2 (by decide)
      hashesEx rfl,
   ((C4_theorem envW4 reqW4bad).2 "alice:secret" rfl (by decide)).1 (by decide)⟩

/-- C5: a catch-all request whose host is the bare legacy domain is 301
redirected to `https://www.electricitymap.org` with path and query
preserved whenever the `User-Agent` does not contain
`facebookexternalhit`; with the crawler marker present the request is not
redirected and (auth unset, hashes present) receives the rendered page. -/
theorem C5_theorem (env : Env) (req : Req)
    (hhost : req.host = "electricitymap.org") :
    (containsSubstr (req.userAgent.getD "") "facebookexternalhit" = false →
      catchAll env req
        = Response.redirect 301 ("https://www.electricitymap.org" ++ originalUrl req)) ∧
    (containsSubstr (req.userAgent.getD "") "facebookexternalhit" = true →
      env.basicAuthCredentials = none →
      ∀ hs, List.lookup (resolveLocale req) env.srcHashes = some hs →
        catchAll env req = Response.render none
          (mkViewModel env req (resolveLocale req)
            ("https://www.electricitymap.org" ++ originalUrl req) hs)) := by
  constructor
  · intro hua
    have hcond : canonicalRedirectCond req = true := by
      unfold canonicalRedirectCond
      rw [hhost, hua]
      decide
    simp only [catchAll, hcond]
    simp
  · intro hua hcred hs hlook
    have hcond : canonicalRedirectCond req = false := by
      unfold canonicalRedirectCond
      rw [hhost, hua]
      decide
    simp only [catchAll, hcond, hcred]
    simp only [renderPage, hlook]
    simp

/-- C5 witness: `/map?foo=1` on the bare host with a browser agent is
redirected; the same URL fetched by `facebookexternalhit` renders. -/
theorem C5_witness :
    catchAll envW reqW5
      = Response.redirect 301 ("https://www.electricitymap.org" ++ originalUrl reqW5) ∧
    catchAll envW reqW5fb = Response.render none
      (mkViewModel envW reqW5fb (resolveLocale reqW5fb)
        ("https://www.electricitymap.org" ++ originalUrl reqW5fb) hashesEx) :=
  ⟨(C5_theorem envW reqW5 rfl).1 (by decide),
   (C5_theorem envW reqW5fb rfl).2 (by decide) rfl hashesEx rfl⟩

/-- C6: `getHash` strips the chunk-name prefix and the extension — a string
chunk entry `bundle.abc123.js` yields `abc123`, and a list entry is first
filtered by the extension pattern (keeping `bundle.abc123.js`, dropping the
`.map` sibling) with the first match used, again yielding `abc123`. -/
theorem C6_theorem :
    getHash "bundle" "js" ⟨[("bundle", ChunkVal.str "bundle.abc123.js")]⟩
      = some "abc123" ∧
    ["bundle.abc123.js", "bundle.abc123.js.map"].filter (fun d => extMatches "js" d)
      = ["bundle.abc123.js"] ∧
    getHash "bundle" "js"
      ⟨[("bundle", ChunkVal.list ["bundle.abc123.js", "bundle.abc123.js.map"])]⟩
      = some "abc123" := by
  decide

/-- C7: the startup hash table contains exactly the successful locales —
for a listed locale the table holds precisely the result of loading and
extracting its manifest, and any locale whose manifest read/parse or hash
extraction fails is omitted (the bootstrap itself never fails). -/
theorem C7_theorem (manifests : String → Option Manifest) (ls : List String)
    (k : String) :
    (k ∈ ls → List.lookup k (buildSrcHashes manifests ls)
        = (manifests k).bind loadLocaleHashes) ∧
    ((manifests k).bind loadLocaleHashes = none →
      List.lookup k (buildSrcHashes manifests ls) = none) := by
  unfold buildSrcHashes
  rw [lookup_filterMapEntries]
  constructor
  · intro hmem
    by_cases hg : (manifests k).bind loadLocaleHashes = none
    · rw [if_neg, hg]
      tauto
    · rw [if_pos ⟨hmem, hg⟩]
  · intro hg
    rw [if_neg]
    tauto

/-- C7 witness: with a manifest table where only `en` loads, the built
hash table has the `en` entry and omits the failing `fr`. -/
theorem C7_witness :
    List.lookup "en" (buildSrcHashes exManifests ["en", "fr"])
      = (exManifests "en").bind loadLocaleHashes ∧
    List.lookup "fr" (buildSrcHashes exManifests ["en", "fr"]) = none :=
  ⟨(C7_theorem exManifests ["en", "fr"] "en").1 (by decide),
   (C7_theorem exManifests ["en", "fr"] "fr").2 rfl⟩

/-- C8: every GET request whose path begins with `/v1/` or `/v2/` receives
a 301 permanent redirect to `https://api.electricitymap.org` with the
original path and query string preserved. -/
theorem C8_theorem (env : Env) (req : Req) (hm : req.method = "GET")
    (hp : "/v1/".data.isPrefixOf req.path.data = true
        ∨ "/v2/".data.isPrefixOf req.path.data = true) :
    dispatch env req
      = Response.redirect 301 ("https://api.electricitymap.org" ++ originalUrl req) := by
  have hfix : ∀ s : String,
      ("/v1/".data.isPrefixOf s.data || "/v2/".data.isPrefixOf s.data) = false →
      req.path ≠ s := by
    intro s hs he
    rw [he] at hp
    rcases hp with hp | hp <;> simp [hp] at hs
  have h1 : req.path ≠ "/health" := hfix "/health" (by decide)
  have h2 : req.path ≠ "/clientVersion" := hfix "/clientVersion" (by decide)
  have h3 : req.path ≠ "/translationstatus/badges.svg" :=
    hfix "/translationstatus/badges.svg" (by decide)
  have h4 : req.path ≠ "/translationstatus" := hfix "/translationstatus" (by decide)
  have hts : tsLangMatch req.path = false := by
    have hpre : "/translationstatus/".data.isPrefixOf req.path.data = false := by
      by_contra hc
      rw [Bool.not_eq_false] at hc
      have h19 : "/translationstatus/".data <+: req.path.data :=
        List.isPrefixOf_iff_prefix.mp hc
      rcases hp with hp | hp
      · have hx : "/v1/".data <+: "/translationstatus/".data :=
          List.prefix_of_prefix_length_le (List.isPrefixOf_iff_prefix.mp hp) h19
            (by decide)
        exact absurd hx (by decide)
      · have hx : "/v2/".data <+: "/translationstatus/".data :=
          List.prefix_of_prefix_length_le (List.isPrefixOf_iff_prefix.mp hp) h19
            (by decide)
        exact absurd hx (by decide)
    simp [tsLangMatch, hpre]
  unfold dispatch
  rw [if_neg (fun hc => h1 hc.2), if_neg (fun hc => h2 hc.2),
      if_neg (fun hc => h3 hc.2), if_neg (fun hc => h4 hc.2),
      if_neg (fun hc => Bool.noConfusion (hts.symm.trans hc.2)),
      if_pos ⟨hm, hp⟩]

/-- C8 witness: `/v1/foo?bar=1` redirects to
`https://api.electricitymap.org/v1/foo?bar=1`. -/
theorem C8_witness :
    dispatch envC1 reqW8
      = Response.redirect 301 "https://api.electricitymap.org/v1/foo?bar=1" := by
  rw [C8_theorem envC1 reqW8 rfl (Or.inl (by decide))]
  rfl

/-- C10: the render step dereferences `srcHashes[locale]` without a guard,
so any request that reaches it (no canonical redirect, auth gate passed)
whose resolved locale — e.g. set from `fb_locale` — has no entry in the
hash table makes the handler throw instead of rendering. -/
theorem C10_theorem (env : Env) (req : Req)
    (h1 : canonicalRedirectCond req = false)
    (h2 : passesAuthGate env req = true)
    (h3 : List.lookup (resolveLocale req) env.srcHashes = none) :
    catchAll env req = Response.error := by
  cases hcred : env.basicAuthCredentials with
  | none =>
    simp only [catchAll, h1, hcred]
    simp only [renderPage, h3]
    simp
  | some credStr =>
    have h2' : credsMatch credStr req.user = true := by
      unfold passesAuthGate at h2
      rw [hcred] at h2
      exact h2
    simp only [catchAll, h1, hcred]
    simp only [h2', renderPage, h3]
    simp

/-- C10 witness: `fb_locale=fr_FR` resolves the locale to `fr`, which the
hash table omits, so the handler throws. -/
theorem C10_witness : catchAll envW reqW10 = Response.error :=
  C10_theorem envW reqW10 (by decide) (by decide) rfl

end EMap
